import Mathlib

/-!
Shallow embedding of the CollegeElectionSite election subsystem
(src/models/Election.js, src/controllers/electionController.js,
src/config/mailer.js) and proofs about the claims on its behaviour.

Dates are modelled as natural numbers (milliseconds since epoch);
Mongo ObjectIds, roll numbers and tokens as strings.  Controller
handlers become functions returning `Except` — an error value stands
for the flash-error-and-redirect path, a returned `Election` for the
saved document.  Database lookups (`findOne`, `findById`) become
filters over explicit lists passed as arguments; a request field that
JS would see as truthy is modelled as `some`-valued `Option`.
-/

namespace CollegeElection

/-- Election lifecycle status, the `status` enum of the Election schema. -/
inductive Status where
  | pending
  | active
  | completed
  | cancelled
deriving DecidableEq, Repr

/-- Parse a status string, as the admin controller validates
`['pending','active','completed','cancelled'].includes(status)`. -/
def Status.ofString? : String → Option Status
  | "pending" => some .pending
  | "active" => some .active
  | "completed" => some .completed
  | "cancelled" => some .cancelled
  | _ => none

/-- An entry of the authenticated vote ledger (`votes` array). -/
structure Vote where
  student : String
  candidate : String
  timestamp : Nat
deriving DecidableEq, Repr

/-- An entry of the anonymous vote ledger (`anonymousVotes` array). -/
structure AnonymousVote where
  rollNumber : String
  candidate : String
  ipAddress : String
  userAgent : String
  timestamp : Nat
deriving DecidableEq, Repr

/-- A public-access voting time slot. -/
structure TimeSlot where
  startTime : Nat
  endTime : Nat
  isActive : Bool
deriving DecidableEq, Repr

/-- The `qrCode` subdocument. -/
structure QRCodeInfo where
  data : String
  accessToken : String
  isEnabled : Bool
deriving DecidableEq, Repr

/-- The `publicAccess` subdocument. -/
structure PublicAccess where
  allowAnonymousVoting : Bool
  requireRollNumber : Bool
  votingTimeSlots : List TimeSlot
deriving DecidableEq, Repr

/-- The `results` subdocument. -/
structure ResultsInfo where
  published : Bool
  publishedAt : Option Nat
  winner : Option String
deriving DecidableEq, Repr

/-- An Election document. -/
structure Election where
  id : String
  title : String
  description : String
  classId : String
  startDate : Nat
  endDate : Nat
  candidates : List String
  qrCode : QRCodeInfo
  publicAccess : PublicAccess
  anonymousVotes : List AnonymousVote
  votes : List Vote
  status : Status
  createdBy : String
  results : ResultsInfo
deriving DecidableEq, Repr

/-- A Candidate document, with the fields the controllers query
(`_id`, `election`, `approved`, `active`). -/
structure CandidateRec where
  id : String
  election : String
  approved : Bool
  active : Bool
deriving DecidableEq, Repr

/-- Virtual `isActive`: `startDate <= now && now <= endDate && status === 'active'`. -/
def Election.isActiveAt (e : Election) (now : Nat) : Bool :=
  decide (e.startDate ≤ now) && decide (now ≤ e.endDate) && decide (e.status = .active)

/-- Method `hasVoted(studentId, rollNumber = null)`: a registered vote by
the student, or an anonymous vote by the roll number, each check made
only when the corresponding argument is present. -/
def Election.hasVoted (e : Election) (studentId : Option String) (rollNumber : Option String) : Bool :=
  (match studentId with
   | some sid => e.votes.any fun v => v.student = sid
   | none => false)
  ||
  (match rollNumber with
   | some r => e.anonymousVotes.any fun v => v.rollNumber = r
   | none => false)

/-- Method `isVotingAllowed()`: active now, anonymous voting enabled, and
inside an active time slot when time slots exist. -/
def Election.isVotingAllowed (e : Election) (now : Nat) : Bool :=
  if !e.isActiveAt now then false
  else if !e.publicAccess.allowAnonymousVoting then false
  else if !e.publicAccess.votingTimeSlots.isEmpty then
    e.publicAccess.votingTimeSlots.any fun slot =>
      slot.isActive && decide (slot.startTime ≤ now) && decide (now ≤ slot.endTime)
  else true

/-- One step of building `voteCount`:
`voteCount[candidateId] = (voteCount[candidateId] || 0) + 1`.  A JS
object with non-numeric string keys iterates in insertion order, so the
tally is an association list keyed in first-occurrence order. -/
def bumpCount (acc : List (String × Nat)) (c : String) : List (String × Nat) :=
  if acc.any fun p => p.1 = c then
    acc.map fun p => if p.1 = c then (p.1, p.2 + 1) else p
  else
    acc ++ [(c, 1)]

/-- The grouped tally of the authenticated ledger, in first-occurrence order. -/
def voteCountOf (votes : List Vote) : List (String × Nat) :=
  votes.foldl (fun acc v => bumpCount acc v.candidate) []

/-- One step of the winner scan: `if (votes > maxVotes) { maxVotes = votes; winnerId = candidateId }`. -/
def scanStep (acc : Nat × Option String) (p : String × Nat) : Nat × Option String :=
  if acc.1 < p.2 then (p.2, some p.1) else acc

/-- The `Object.entries(voteCount).forEach` winner scan, starting from
`maxVotes = 0`, `winnerId = null`. -/
def scanWinner (l : List (String × Nat)) : Nat × Option String :=
  l.foldl scanStep (0, none)

/-- The value returned by `calculateResults`. -/
structure CalcResult where
  totalVotes : Nat
  voteCounts : List (String × Nat)
  winnerId : Option String
  maxVotes : Nat
deriving DecidableEq, Repr

/-- Method `calculateResults()`: group the authenticated ledger by
candidate, scan for the strict maximum, and when a winner exists set
`results.winner`, `results.published`, `results.publishedAt` and
`status = 'completed'` before saving. -/
def Election.calculateResults (e : Election) (now : Nat) : CalcResult × Election :=
  let voteCount := voteCountOf e.votes
  let scanned := scanWinner voteCount
  let maxVotes := scanned.1
  let winnerId := scanned.2
  let e' := match winnerId with
    | some w =>
      { e with
        results := { published := true, publishedAt := some now, winner := some w }
        status := .completed }
    | none => e
  ({ totalVotes := e.votes.length, voteCounts := voteCount
     winnerId := winnerId, maxVotes := maxVotes }, e')

/-- Rejection paths of `castVote` (student controller). -/
inductive CastError where
  | notFoundOrInactive
  | notCurrentlyActive
  | alreadyVoted
  | invalidCandidate
deriving DecidableEq, Repr

/-- Student `castVote`: find the election restricted to the student's
class and `status: 'active'`; reject outside `[startDate, endDate]`;
reject when `hasVoted(studentId)`; require an approved, active candidate
of this election; then push onto the authenticated ledger. -/
def castVote (now : Nat) (studentClassId : String) (allCandidates : List CandidateRec)
    (studentId candidateId : String) (e : Election) : Except CastError Election :=
  if !(decide (e.classId = studentClassId) && decide (e.status = .active)) then
    .error .notFoundOrInactive
  else if decide (now < e.startDate) || decide (e.endDate < now) then
    .error .notCurrentlyActive
  else if e.hasVoted (some studentId) none then
    .error .alreadyVoted
  else
    match allCandidates.find? (fun c =>
        decide (c.id = candidateId) && decide (c.election = e.id) && c.approved && c.active) with
    | none => .error .invalidCandidate
    | some _ =>
      .ok { e with votes := e.votes ++ [{ student := studentId, candidate := candidateId, timestamp := now }] }

/-- Rejection paths of `submitPublicVote` (public/anonymous controller). -/
inductive PubVoteError where
  | noCandidate
  | invalidLink
  | votingNotAllowed
  | rollRequired
  | alreadyVoted
  | invalidCandidate
deriving DecidableEq, Repr

/-- Anonymous `submitPublicVote` on the `/vote/:token` route: require a
candidate selection; find the election by `qrCode.accessToken === token`
and `qrCode.isEnabled: true`; check `isVotingAllowed()`; require a roll
number when `publicAccess.requireRollNumber`; reject a roll number that
has already voted; validate the candidate against the Candidate
collection and the election's candidate list; then push onto the
anonymous ledger (a missing roll number is recorded as
`anonymous_<Date.now()>`). -/
def submitPublicVote (now : Nat) (allCandidates : List CandidateRec) (token : String)
    (candidateId : Option String) (rollNumber : Option String) (ip ua : String)
    (e : Election) : Except PubVoteError Election :=
  match candidateId with
  | none => .error .noCandidate
  | some cid =>
    if !(decide (e.qrCode.accessToken = token) && e.qrCode.isEnabled) then
      .error .invalidLink
    else if !e.isVotingAllowed now then
      .error .votingNotAllowed
    else if e.publicAccess.requireRollNumber && rollNumber.isNone then
      .error .rollRequired
    else if (match rollNumber with
             | some r => e.hasVoted none (some r)
             | none => false) then
      .error .alreadyVoted
    else if !((allCandidates.any fun c => c.id = cid) && (e.candidates.any fun c => c = cid)) then
      .error .invalidCandidate
    else
      .ok { e with anonymousVotes := e.anonymousVotes ++
              [{ rollNumber := rollNumber.getD ("anonymous_" ++ toString now)
                 candidate := cid, ipAddress := ip, userAgent := ua, timestamp := now }] }

/-- Rejection path of `toggleQRAccess` (role not teacher/admin). -/
inductive ToggleError where
  | unauthorized
deriving DecidableEq, Repr

/-- `toggleQRAccess`: authorization check, then
`election.qrCode.isEnabled = !election.qrCode.isEnabled` and save; the
access token is not touched. -/
def toggleQRAccess (authorized : Bool) (e : Election) : Except ToggleError Election :=
  if !authorized then .error .unauthorized
  else .ok { e with qrCode := { e.qrCode with isEnabled := !e.qrCode.isEnabled } }

/-- The `$or` of the overlap `findOne` in `createElection`, on the new
window `[s, e]` against an existing window `[es, ee]`:
existing start inside the new window, or existing end inside the new
window, or the existing window containing the new one. -/
def overlapQuery (s e es ee : Nat) : Bool :=
  (decide (es ≤ e) && decide (s ≤ es))
  || (decide (ee ≤ e) && decide (s ≤ ee))
  || (decide (es ≤ s) && decide (e ≤ ee))

/-- The inclusive interval-overlap test named by the spec:
`newStart ≤ existingEnd AND newEnd ≥ existingStart`. -/
def specOverlap (s e es ee : Nat) : Bool :=
  decide (s ≤ ee) && decide (es ≤ e)

/-- The overlap `findOne` of `createElection`: same class, status
pending or active, and the three-disjunct window test. -/
def findOverlapping (elections : List Election) (classId : String) (s e : Nat) :
    Option Election :=
  elections.find? fun el =>
    decide (el.classId = classId)
    && (decide (el.status = .active) || decide (el.status = .pending))
    && overlapQuery s e el.startDate el.endDate

/-- Rejection paths of `createElection`. -/
inductive CreateError where
  | missingFields
  | noClassPermission
  | startInPast
  | endNotAfterStart
  | overlap
deriving DecidableEq, Repr

/-- Teacher `createElection`: required fields, class-teacher permission,
`start < now` rejected, `end <= start` rejected, overlap `findOne`
rejected, else a new pending election with schema defaults. -/
def createElection (now : Nat) (elections : List Election) (classPerm : Bool)
    (newId title description classId : String) (startDate endDate : Nat)
    (createdBy : String) : Except CreateError Election :=
  if decide (title = "") || decide (description = "") || decide (classId = "") then
    .error .missingFields
  else if !classPerm then
    .error .noClassPermission
  else if decide (startDate < now) then
    .error .startInPast
  else if decide (endDate ≤ startDate) then
    .error .endNotAfterStart
  else if (findOverlapping elections classId startDate endDate).isSome then
    .error .overlap
  else
    .ok { id := newId, title := title, description := description, classId := classId
          startDate := startDate, endDate := endDate, candidates := []
          qrCode := { data := "", accessToken := "", isEnabled := true }
          publicAccess := { allowAnonymousVoting := true, requireRollNumber := true
                            votingTimeSlots := [] }
          anonymousVotes := [], votes := [], status := .pending
          createdBy := createdBy
          results := { published := false, publishedAt := none, winner := none } }

/-- Rejection paths of teacher `updateElection`. -/
inductive UpdateError where
  | noPermission
  | completedLocked
  | startNotFuture
  | endNotAfterStart
deriving DecidableEq, Repr

/-- The date-edit phase of `updateElection`: dates change only while
the election is pending, a new start date must be in the future, and a
new end date must fall after the (possibly just updated) start date. -/
def applyDateEdits (now : Nat) (startDate endDate : Option Nat) (e1 : Election) :
    Except UpdateError Election :=
  if e1.status = .pending then
    match startDate with
    | some sd =>
      if decide (now < sd) then
        match endDate with
        | some ed =>
          if decide (sd < ed) then .ok { e1 with startDate := sd, endDate := ed }
          else .error .endNotAfterStart
        | none => .ok { e1 with startDate := sd }
      else .error .startNotFuture
    | none =>
      match endDate with
      | some ed =>
        if decide (e1.startDate < ed) then .ok { e1 with endDate := ed }
        else .error .endNotAfterStart
      | none => .ok e1
  else .ok e1

/-- The status-transition phase of `updateElection`: active may be
completed (running `calculateResults`), anything but completed may be
cancelled, pending may be activated, and any other request is silently
ignored. -/
def applyStatusChange (now : Nat) : Option String → Election → Election
  | some st, e2 =>
    if st = "completed" ∧ e2.status = .active then (e2.calculateResults now).2
    else if st = "cancelled" ∧ e2.status ≠ .completed then { e2 with status := .cancelled }
    else if st = "active" ∧ e2.status = .pending then { e2 with status := .active }
    else e2
  | none, e2 => e2

/-- Teacher `updateElection`: permission, the completed-election guard
(`status === 'completed' && requested !== 'completed'`), optional title
and description, then the date-edit and status-transition phases. -/
def updateElection (now : Nat) (perm : Bool) (title description : Option String)
    (startDate endDate : Option Nat) (status : Option String) (e : Election) :
    Except UpdateError Election :=
  if !perm then .error .noPermission
  else if decide (e.status = .completed) && decide (status ≠ some "completed") then
    .error .completedLocked
  else
    match applyDateEdits now startDate endDate
        { e with title := title.getD e.title, description := description.getD e.description } with
    | .error err => .error err
    | .ok e2 => .ok (applyStatusChange now status e2)

/-- Rejection path of admin `updateElectionStatus`. -/
inductive StatusError where
  | invalidStatus
deriving DecidableEq, Repr

/-- Admin `updateElectionStatus`: validate the status string, then set
`election.status = status` unconditionally; when the new status is
completed, also run `calculateResults`. -/
def updateElectionStatus (now : Nat) (statusStr : String) (e : Election) :
    Except StatusError Election :=
  match Status.ofString? statusStr with
  | none => .error .invalidStatus
  | some st =>
    let e1 := { e with status := st }
    if st = .completed then .ok (e1.calculateResults now).2 else .ok e1

/-- Rejection paths of `publishResults`. -/
inductive PublishError where
  | noPermission
  | notCompleted
deriving DecidableEq, Repr

/-- The completion step of `publishResults`: a non-completed election
passes only when it is active and past its end date, in which case its
status is set to completed in place. -/
def completeIfEnded (now : Nat) (e : Election) : Except PublishError Election :=
  if e.status ≠ .completed then
    if decide (e.status = .active) && decide (e.endDate ≤ now) then
      .ok { e with status := .completed }
    else .error .notCompleted
  else .ok e

/-- Teacher `publishResults`: permission; the completion step; then
`calculateResults` runs and `results.published`/`results.publishedAt`
are set. -/
def publishResults (now : Nat) (perm : Bool) (e : Election) :
    Except PublishError Election :=
  if !perm then .error .noPermission
  else
    match completeIfEnded now e with
    | .error err => .error err
    | .ok e1 =>
      let e2 := (e1.calculateResults now).2
      .ok { e2 with results := { e2.results with published := true, publishedAt := some now } }

/-- Rejection paths of `removeCandidate`. -/
inductive RemoveError where
  | noPermission
  | candidacyLocked
  | candidateNotFound
deriving DecidableEq, Repr

/-- Teacher `removeCandidate`: permission; reject when the election is
active or completed; find the candidate of this election; filter it out
of the election's candidate list. -/
def removeCandidate (perm : Bool) (candidateId : String) (allCandidates : List CandidateRec)
    (e : Election) : Except RemoveError Election :=
  if !perm then .error .noPermission
  else if decide (e.status = .active) || decide (e.status = .completed) then
    .error .candidacyLocked
  else
    match allCandidates.find? (fun c => decide (c.id = candidateId) && decide (c.election = e.id)) with
    | none => .error .candidateNotFound
    | some _ => .ok { e with candidates := e.candidates.filter fun c => c ≠ candidateId }

/-- Whether an `Except` result took the success path. -/
def isOkE {ε α : Type} : Except ε α → Bool
  | .ok _ => true
  | .error _ => false

/-- One request to the student `castVote` route. -/
structure CastReq where
  now : Nat
  studentClassId : String
  allCandidates : List CandidateRec
  studentId : String
  candidateId : String
deriving Repr

/-- Apply one `castVote` request; a rejected request leaves the stored
election untouched (the handler returned before any save). -/
def applyCastVote (r : CastReq) (e : Election) : Election :=
  match castVote r.now r.studentClassId r.allCandidates r.studentId r.candidateId e with
  | .ok e' => e'
  | .error _ => e

/-- Apply a sequence of `castVote` requests in order. -/
def runCastVotes (rs : List CastReq) (e : Election) : Election :=
  rs.foldl (fun acc r => applyCastVote r acc) e

/-- One request to the public `submitPublicVote` route. -/
structure PubReq where
  now : Nat
  allCandidates : List CandidateRec
  token : String
  candidateId : Option String
  rollNumber : Option String
  ip : String
  ua : String
deriving Repr

/-- Apply one `submitPublicVote` request; a rejected request leaves the
stored election untouched. -/
def applyPublicVote (r : PubReq) (e : Election) : Election :=
  match submitPublicVote r.now r.allCandidates r.token r.candidateId r.rollNumber r.ip r.ua e with
  | .ok e' => e'
  | .error _ => e

/-- Apply a sequence of `submitPublicVote` requests in order. -/
def runPublicVotes (rs : List PubReq) (e : Election) : Election :=
  rs.foldl (fun acc r => applyPublicVote r acc) e

/-- Number of authenticated ledger entries recorded for a student. -/
def countForStudent (votes : List Vote) (s : String) : Nat :=
  (votes.filter fun v => v.student = s).length

/-- Number of anonymous ledger entries recorded for a roll number. -/
def countForRoll (votes : List AnonymousVote) (r : String) : Nat :=
  (votes.filter fun v => v.rollNumber = r).length

/-- The authenticated ledger holds at most one entry per student. -/
def authLedgerUnique (e : Election) : Prop :=
  ∀ s, countForStudent e.votes s ≤ 1

/-- The anonymous ledger holds at most one entry per roll number. -/
def anonLedgerUnique (e : Election) : Prop :=
  ∀ r, countForRoll e.anonymousVotes r ≤ 1

/-- A concrete election used to instantiate the theorems. -/
def baseElection : Election :=
  { id := "e1", title := "CR Election", description := "demo", classId := "c1"
    startDate := 100, endDate := 200, candidates := ["A", "B"]
    qrCode := { data := "", accessToken := "tok", isEnabled := true }
    publicAccess := { allowAnonymousVoting := true, requireRollNumber := true
                      votingTimeSlots := [] }
    anonymousVotes := [], votes := [], status := .active, createdBy := "t1"
    results := { published := false, publishedAt := none, winner := none } }

/-- An authenticated ledger giving candidate A five votes and candidate B three. -/
def votesAB : List Vote :=
  [ { student := "s1", candidate := "A", timestamp := 150 }
  , { student := "s2", candidate := "A", timestamp := 150 }
  , { student := "s3", candidate := "A", timestamp := 150 }
  , { student := "s4", candidate := "A", timestamp := 150 }
  , { student := "s5", candidate := "A", timestamp := 150 }
  , { student := "s6", candidate := "B", timestamp := 150 }
  , { student := "s7", candidate := "B", timestamp := 150 }
  , { student := "s8", candidate := "B", timestamp := 150 } ]

/-- The concrete election after its status reached completed. -/
def completedElection : Election := { baseElection with status := .completed }

/-- The concrete election after its status reached cancelled. -/
def cancelledElection : Election := { baseElection with status := .cancelled }

/-- An approved, active candidate record for candidate A of the concrete election. -/
def candA : CandidateRec := { id := "A", election := "e1", approved := true, active := true }

/-! ### Lemmas about the winner scan -/

/-- Running the scan over entries all strictly below `n`, from a running
maximum strictly below `n`, keeps the running maximum strictly below `n`. -/
theorem foldl_scanStep_lt (n : Nat) :
    ∀ (l : List (String × Nat)) (m : Nat) (w : Option String),
      (∀ p ∈ l, p.2 < n) → m < n → (List.foldl scanStep (m, w) l).1 < n := by
  intro l
  induction l with
  | nil => intro m w _ hm; simpa using hm
  | cons p rest ih =>
    intro m w h hm
    rw [List.foldl_cons]
    unfold scanStep
    split
    · exact ih p.2 (some p.1) (fun q hq => h q (List.mem_cons_of_mem _ hq))
        (h p (List.mem_cons_self _ _))
    · exact ih m w (fun q hq => h q (List.mem_cons_of_mem _ hq)) hm

/-- Entries not exceeding the running maximum never change the scan state. -/
theorem foldl_scanStep_const (m : Nat) (w : Option String) :
    ∀ (l : List (String × Nat)), (∀ p ∈ l, p.2 ≤ m) →
      List.foldl scanStep (m, w) l = (m, w) := by
  intro l
  induction l with
  | nil => intro _; rfl
  | cons p rest ih =>
    intro h
    rw [List.foldl_cons]
    unfold scanStep
    rw [if_neg (by simpa using Nat.not_lt.mpr (h p (List.mem_cons_self _ _)))]
    exact ih fun q hq => h q (List.mem_cons_of_mem _ hq)

/-- The scan returns the first entry whose count strictly beats every
earlier entry and is not beaten later: first-encountered tie-breaking. -/
theorem scanWinner_firstMax (l1 l2 : List (String × Nat)) (c : String) (n : Nat)
    (hn : 0 < n) (h1 : ∀ p ∈ l1, p.2 < n) (h2 : ∀ p ∈ l2, p.2 ≤ n) :
    scanWinner (l1 ++ (c, n) :: l2) = (n, some c) := by
  unfold scanWinner
  rw [List.foldl_append, List.foldl_cons]
  have hlt : (List.foldl scanStep (0, none) l1).1 < n := foldl_scanStep_lt n l1 0 none h1 hn
  have hstep : scanStep (List.foldl scanStep (0, none) l1) (c, n) = (n, some c) := by
    show (if (List.foldl scanStep (0, none) l1).1 < n then (n, some c)
          else List.foldl scanStep (0, none) l1) = (n, some c)
    rw [if_pos hlt]
  rw [hstep]
  exact foldl_scanStep_const n (some c) l2 h2

/-- Claim C1: `calculateResults` groups only the authenticated vote
ledger by candidate — the anonymous ledger is excluded from the win
computation — counts occurrences, and picks as winner the candidate
with strictly the most votes, resolving ties by
first-encountered-in-iteration-order; `totalVotes` is the length of the
authenticated ledger.  Stated via the first-occurrence-ordered tally:
whenever the tally splits around an entry `(c, n)` with every earlier
count strictly below `n` and every later count at most `n`, the winner
is `c` with `maxVotes = n`. -/
theorem calculateResults_winner_spec (now : Nat) (e : Election)
    (av : List AnonymousVote) (l1 l2 : List (String × Nat)) (c : String) (n : Nat)
    (hsplit : voteCountOf e.votes = l1 ++ (c, n) :: l2)
    (hn : 0 < n) (h1 : ∀ p ∈ l1, p.2 < n) (h2 : ∀ p ∈ l2, p.2 ≤ n) :
    (Election.calculateResults { e with anonymousVotes := av } now).1
        = (e.calculateResults now).1
    ∧ (e.calculateResults now).1.winnerId = some c
    ∧ (e.calculateResults now).1.maxVotes = n
    ∧ (e.calculateResults now).1.totalVotes = e.votes.length := by
  have hw : scanWinner (voteCountOf e.votes) = (n, some c) := by
    rw [hsplit]
    exact scanWinner_firstMax l1 l2 c n hn h1 h2
  refine ⟨rfl, ?_, ?_, rfl⟩
  · show (scanWinner (voteCountOf e.votes)).2 = some c
    rw [hw]
  · show (scanWinner (voteCountOf e.votes)).1 = n
    rw [hw]

/-- Witness for C1 at the spec's concrete example: with candidate A at
five authenticated votes and candidate B at three, the winner is A,
`maxVotes` is five, and `totalVotes` is eight. -/
theorem calculateResults_winner_spec_witness :
    (Election.calculateResults { baseElection with votes := votesAB } 300).1.winnerId = some "A"
    ∧ (Election.calculateResults { baseElection with votes := votesAB } 300).1.maxVotes = 5
    ∧ (Election.calculateResults { baseElection with votes := votesAB } 300).1.totalVotes = 8 := by
  have h := calculateResults_winner_spec 300 { baseElection with votes := votesAB }
    [] [] [("B", 3)] "A" 5 (by decide) (by decide) (by decide) (by decide)
  exact ⟨h.2.1, h.2.2.1, h.2.2.2.trans (by decide)⟩

/-! ### Lemmas about the success paths of the two voting handlers -/

/-- A successful `castVote` happened on a student with no authenticated
ledger entry, appended exactly that student's vote, and left the
anonymous ledger alone. -/
theorem castVote_ok_spec (now : Nat) (cls : String) (cands : List CandidateRec)
    (sid cid : String) (e e' : Election)
    (h : castVote now cls cands sid cid e = .ok e') :
    (e.votes.any fun v => v.student = sid) = false
    ∧ e'.votes = e.votes ++ [{ student := sid, candidate := cid, timestamp := now }]
    ∧ e'.anonymousVotes = e.anonymousVotes := by
  unfold castVote at h
  split at h
  · exact Except.noConfusion h
  · split at h
    · exact Except.noConfusion h
    · split at h
      · exact Except.noConfusion h
      · rename_i hnv
        split at h
        · exact Except.noConfusion h
        · injection h with h'
          subst h'
          refine ⟨?_, rfl, rfl⟩
          have hnv' : e.hasVoted (some sid) none = false := by
            exact Bool.not_eq_true _ ▸ Bool.of_not_eq_true hnv
          unfold Election.hasVoted at hnv'
          simpa using hnv'

/-- A successful `submitPublicVote` appended exactly one anonymous
entry, left the authenticated ledger and the public-access settings
alone, and — when a roll number was required — the appended entry's
roll number had no prior entry in the anonymous ledger. -/
theorem submitPublicVote_ok_spec (now : Nat) (cands : List CandidateRec)
    (token : String) (cid roll : Option String) (ip ua : String) (e e' : Election)
    (h : submitPublicVote now cands token cid roll ip ua e = .ok e') :
    e'.publicAccess = e.publicAccess
    ∧ e'.votes = e.votes
    ∧ ∃ entry, e'.anonymousVotes = e.anonymousVotes ++ [entry]
        ∧ (e.publicAccess.requireRollNumber = true →
            (e.anonymousVotes.any fun v => v.rollNumber = entry.rollNumber) = false) := by
  unfold submitPublicVote at h
  cases cid with
  | none => exact Except.noConfusion h
  | some c =>
    split at h
    · exact Except.noConfusion h
    · split at h
      · exact Except.noConfusion h
      · split at h
        · exact Except.noConfusion h
        · split at h
          · exact Except.noConfusion h
          · rename_i hroll
            split at h
            · exact Except.noConfusion h
            · rename_i hvoted
              split at h
              · exact Except.noConfusion h
              · injection h with h'
                subst h'
                refine ⟨rfl, rfl, _, rfl, ?_⟩
                intro hreq
                have hsome : roll.isNone = false := by
                  rcases hr : roll.isNone with _ | _
                  · rfl
                  · exact absurd (by rw [hreq, hr]; rfl) hroll
                cases roll with
                | some r =>
                  have hv : e.hasVoted none (some r) = false :=
                    Bool.of_not_eq_true hvoted
                  unfold Election.hasVoted at hv
                  simpa using hv
                | none => simp at hsome

/-- Appending one vote adds one ledger entry for its student and none for others. -/
theorem countForStudent_append_single (votes : List Vote) (v : Vote) (s : String) :
    countForStudent (votes ++ [v]) s
      = countForStudent votes s + (if v.student = s then 1 else 0) := by
  unfold countForStudent
  rw [List.filter_append, List.length_append]
  by_cases hv : v.student = s <;> simp [List.filter, hv]

/-- Appending one anonymous vote adds one entry for its roll number and none for others. -/
theorem countForRoll_append_single (votes : List AnonymousVote) (v : AnonymousVote) (r : String) :
    countForRoll (votes ++ [v]) r
      = countForRoll votes r + (if v.rollNumber = r then 1 else 0) := by
  unfold countForRoll
  rw [List.filter_append, List.length_append]
  by_cases hv : v.rollNumber = r <;> simp [List.filter, hv]

/-- A ledger with no entry for a student counts zero for that student. -/
theorem countForStudent_eq_zero (votes : List Vote) (s : String)
    (h : (votes.any fun v => v.student = s) = false) :
    countForStudent votes s = 0 := by
  unfold countForStudent
  rw [List.length_eq_zero, List.filter_eq_nil_iff]
  rw [List.any_eq_false] at h
  exact h

/-- An anonymous ledger with no entry for a roll number counts zero for it. -/
theorem countForRoll_eq_zero (votes : List AnonymousVote) (r : String)
    (h : (votes.any fun v => v.rollNumber = r) = false) :
    countForRoll votes r = 0 := by
  unfold countForRoll
  rw [List.length_eq_zero, List.filter_eq_nil_iff]
  rw [List.any_eq_false] at h
  exact h

/-- One `castVote` request preserves at-most-one-authenticated-vote-per-student. -/
theorem applyCastVote_unique (r : CastReq) (e : Election)
    (hinv : authLedgerUnique e) : authLedgerUnique (applyCastVote r e) := by
  unfold applyCastVote
  cases hcv : castVote r.now r.studentClassId r.allCandidates r.studentId r.candidateId e with
  | error err => exact hinv
  | ok e2 =>
    obtain ⟨hfresh, hvotes, _⟩ := castVote_ok_spec _ _ _ _ _ _ _ hcv
    intro s
    show countForStudent e2.votes s ≤ 1
    rw [hvotes, countForStudent_append_single]
    by_cases hs : r.studentId = s
    · have h0 : countForStudent e.votes s = 0 :=
        countForStudent_eq_zero e.votes s (hs ▸ hfresh)
      simp [h0, hs]
    · simpa [hs] using hinv s

/-- One `submitPublicVote` request preserves the roll-number-required
flag and at-most-one-anonymous-vote-per-roll-number. -/
theorem applyPublicVote_unique (r : PubReq) (e : Election)
    (hreq : e.publicAccess.requireRollNumber = true)
    (hinv : anonLedgerUnique e) :
    (applyPublicVote r e).publicAccess.requireRollNumber = true
    ∧ anonLedgerUnique (applyPublicVote r e) := by
  unfold applyPublicVote
  cases hcv : submitPublicVote r.now r.allCandidates r.token r.candidateId r.rollNumber r.ip r.ua e with
  | error err => exact ⟨hreq, hinv⟩
  | ok e2 =>
    obtain ⟨hpa, _, entry, happ, hfreshIf⟩ := submitPublicVote_ok_spec _ _ _ _ _ _ _ _ _ hcv
    have hfresh := hfreshIf hreq
    refine ⟨by rw [hpa]; exact hreq, ?_⟩
    intro rr
    show countForRoll e2.anonymousVotes rr ≤ 1
    rw [happ, countForRoll_append_single]
    by_cases hr : entry.rollNumber = rr
    · have h0 : countForRoll e.anonymousVotes rr = 0 :=
        countForRoll_eq_zero e.anonymousVotes rr (hr ▸ hfresh)
      simp [h0, hr]
    · simpa [hr] using hinv rr

/-- Any sequence of `castVote` requests preserves the authenticated-ledger invariant. -/
theorem runCastVotes_unique (rs : List CastReq) :
    ∀ e : Election, authLedgerUnique e → authLedgerUnique (runCastVotes rs e) := by
  induction rs with
  | nil => intro e h; exact h
  | cons r rest ih => intro e h; exact ih _ (applyCastVote_unique r e h)

/-- Any sequence of `submitPublicVote` requests preserves the
roll-number-required flag and the anonymous-ledger invariant. -/
theorem runPublicVotes_unique (ps : List PubReq) :
    ∀ e : Election, e.publicAccess.requireRollNumber = true → anonLedgerUnique e →
      (runPublicVotes ps e).publicAccess.requireRollNumber = true
      ∧ anonLedgerUnique (runPublicVotes ps e) := by
  induction ps with
  | nil => intro e h1 h2; exact ⟨h1, h2⟩
  | cons r rest ih =>
    intro e h1 h2
    have step := applyPublicVote_unique r e h1 h2
    exact ih _ step.1 step.2

/-- Claim C2: starting from ledgers with at most one entry per student
and per roll number (roll number required), after any sequence of
`castVote` calls the authenticated ledger still has at most one entry
per student, and after any sequence of `submitPublicVote`
(anonymous-vote) calls the anonymous ledger still has at most one entry
per roll number. -/
theorem ledger_uniqueness (rs : List CastReq) (ps : List PubReq) (e : Election)
    (hauth : authLedgerUnique e)
    (hreq : e.publicAccess.requireRollNumber = true)
    (hanon : anonLedgerUnique e) :
    authLedgerUnique (runCastVotes rs e) ∧ anonLedgerUnique (runPublicVotes ps e) :=
  ⟨runCastVotes_unique rs e hauth, (runPublicVotes_unique ps e hreq hanon).2⟩

/-- Witness for C2: two repeated authenticated requests by the same
student and two repeated anonymous requests with the same roll number
leave at most one ledger entry each on the concrete election. -/
theorem ledger_uniqueness_witness :
    authLedgerUnique (runCastVotes
      [ { now := 150, studentClassId := "c1", allCandidates := [candA]
          studentId := "s1", candidateId := "A" }
      , { now := 160, studentClassId := "c1", allCandidates := [candA]
          studentId := "s1", candidateId := "A" } ] baseElection)
    ∧ anonLedgerUnique (runPublicVotes
      [ { now := 150, allCandidates := [candA], token := "tok"
          candidateId := some "A", rollNumber := some "r1", ip := "ip", ua := "ua" }
      , { now := 160, allCandidates := [candA], token := "tok"
          candidateId := some "A", rollNumber := some "r1", ip := "ip", ua := "ua" } ] baseElection) := by
  refine ledger_uniqueness _ _ baseElection ?_ rfl ?_
  · intro s; simp [baseElection, countForStudent]
  · intro r; simp [baseElection, countForRoll]

/-- Outside the `[startDate, endDate]` window, or off the active
status, `isVotingAllowed` is false. -/
theorem isVotingAllowed_false_of (now : Nat) (e : Election)
    (h : now < e.startDate ∨ e.endDate < now ∨ e.status ≠ .active) :
    e.isVotingAllowed now = false := by
  have hact : e.isActiveAt now = false := by
    unfold Election.isActiveAt
    rcases h with h | h | h
    · simp [Nat.not_le.mpr h]
    · simp [Nat.not_le.mpr h]
    · simp [h]
  unfold Election.isVotingAllowed
  rw [hact]
  rfl

/-- Claim C3: for both voting routes, a submission made before
`startDate`, after `endDate`, or while the stored status is not
`'active'` is rejected, so no entry joins either ledger. -/
theorem vote_rejected_outside_window (now : Nat) (cls token : String)
    (cands cands2 : List CandidateRec) (sid cid cid2 : String)
    (roll : Option String) (ip ua : String) (e : Election)
    (h : now < e.startDate ∨ e.endDate < now ∨ e.status ≠ .active) :
    (∃ err, castVote now cls cands sid cid e = .error err)
    ∧ (∃ err, submitPublicVote now cands2 token (some cid2) roll ip ua e = .error err) := by
  constructor
  · unfold castVote
    by_cases hsa : e.status = .active
    · have hdate : (decide (now < e.startDate) || decide (e.endDate < now)) = true := by
        rcases h with h | h | h
        · simp [h]
        · simp [h]
        · exact absurd hsa h
      by_cases hcl : e.classId = cls
      · rw [if_neg (by simp [hcl, hsa]), if_pos (by simp [hdate])]
        exact ⟨_, rfl⟩
      · rw [if_pos (by simp [hcl])]
        exact ⟨_, rfl⟩
    · rw [if_pos (by simp [hsa])]
      exact ⟨_, rfl⟩
  · have hvf : e.isVotingAllowed now = false := isVotingAllowed_false_of now e h
    simp only [submitPublicVote]
    by_cases hlink : (decide (e.qrCode.accessToken = token) && e.qrCode.isEnabled) = true
    · rw [if_neg (by simp [hlink]), if_pos (by simp [hvf])]
      exact ⟨_, rfl⟩
    · rw [if_pos (by simp [Bool.of_not_eq_true hlink])]
      exact ⟨_, rfl⟩

/-- Witness for C3 at a concrete early submission: at time 50, before
the concrete election's start date 100, both routes reject. -/
theorem vote_rejected_outside_window_witness :
    (∃ err, castVote 50 "c1" [candA] "s1" "A" baseElection = .error err)
    ∧ (∃ err, submitPublicVote 50 [candA] "tok" (some "A") (some "r1") "ip" "ua" baseElection = .error err) :=
  vote_rejected_outside_window 50 "c1" "tok" [candA] [candA] "s1" "A" "A"
    (some "r1") "ip" "ua" baseElection (Or.inl (by decide))

/-- Claim C4: the three-disjunct `$or` overlap query of `createElection`
is equivalent to the inclusive test `newStart ≤ existingEnd AND
newEnd ≥ existingStart` on well-formed windows; a new election whose
window inclusively overlaps a pending or active election of the same
class is rejected with the overlap error; and the same window on a
class with no elections of its own is accepted. -/
theorem createElection_overlap_spec (now s e : Nat) (elections : List Election)
    (nid t d C cb : String)
    (ht : t ≠ "") (hd : d ≠ "") (hC : C ≠ "") (hnow : now ≤ s) (hse : s < e) :
    (∀ es ee : Nat, es ≤ ee → (overlapQuery s e es ee = true ↔ (s ≤ ee ∧ es ≤ e)))
    ∧ (∀ ex ∈ elections, ex.classId = C → (ex.status = .active ∨ ex.status = .pending) →
        s ≤ ex.endDate → ex.startDate ≤ e →
        createElection now elections true nid t d C s e cb = .error .overlap)
    ∧ ((∀ ex ∈ elections, ex.classId ≠ C) →
        ∃ el, createElection now elections true nid t d C s e cb = .ok el) := by
  refine ⟨?_, ?_, ?_⟩
  · intro es ee hwf
    unfold overlapQuery
    simp only [Bool.or_eq_true, Bool.and_eq_true, decide_eq_true_eq]
    omega
  · intro ex hmem hcl hst h1 h2
    have hoq : overlapQuery s e ex.startDate ex.endDate = true := by
      unfold overlapQuery
      simp only [Bool.or_eq_true, Bool.and_eq_true, decide_eq_true_eq]
      omega
    have hstb : (decide (ex.status = .active) || decide (ex.status = .pending)) = true := by
      rcases hst with h | h <;> simp [h]
    have hsome : (findOverlapping elections C s e).isSome = true := by
      unfold findOverlapping
      rw [List.find?_isSome]
      exact ⟨ex, hmem, by simp [hcl, hstb, hoq]⟩
    unfold createElection
    rw [if_neg (by simp [ht, hd, hC]), if_neg (by simp), if_neg (by simp [Nat.not_lt.mpr hnow]),
        if_neg (by simp [Nat.not_le.mpr hse]), if_pos (by simp [hsome])]
  · intro hall
    have hnone : findOverlapping elections C s e = none := by
      unfold findOverlapping
      rw [List.find?_eq_none]
      intro x hx
      simp [hall x hx]
    unfold createElection
    rw [if_neg (by simp [ht, hd, hC]), if_neg (by simp), if_neg (by simp [Nat.not_lt.mpr hnow]),
        if_neg (by simp [Nat.not_le.mpr hse]), if_neg (by simp [hnone])]
    exact ⟨_, rfl⟩

/-- Witness for C4: against the concrete active election for class c1
over [100, 200], a new window [150, 250] on c1 is rejected as an
overlap, the same window on class c2 is accepted, and the code's query
on these windows agrees with the inclusive test. -/
theorem createElection_overlap_spec_witness :
    (overlapQuery 150 250 100 200 = true ↔ (150 ≤ 200 ∧ 100 ≤ 250))
    ∧ createElection 50 [baseElection] true "e2" "T" "D" "c1" 150 250 "t1" = .error .overlap
    ∧ (∃ el, createElection 50 [baseElection] true "e2" "T" "D" "c2" 150 250 "t1" = .ok el) := by
  have h1 := createElection_overlap_spec 50 150 250 [baseElection] "e2" "T" "D" "c1" "t1"
    (by decide) (by decide) (by decide) (by decide) (by decide)
  have h2 := createElection_overlap_spec 50 150 250 [baseElection] "e2" "T" "D" "c2" "t1"
    (by decide) (by decide) (by decide) (by decide) (by decide)
  refine ⟨h1.1 100 200 (by decide),
    h1.2.1 baseElection (List.mem_singleton.mpr rfl) rfl (Or.inl rfl) (by decide) (by decide),
    h2.2.2 ?_⟩
  intro ex hex
  rw [List.mem_singleton] at hex
  subst hex
  decide

/-- `calculateResults` never moves a completed election to another status. -/
theorem calculateResults_keeps_completed (now : Nat) (e : Election)
    (h : e.status = .completed) : ((e.calculateResults now).2).status = .completed := by
  unfold Election.calculateResults
  cases hw : (scanWinner (voteCountOf e.votes)).2 with
  | none => simp [hw, h]
  | some w => simp [hw]

/-- The date-edit phase does nothing on a non-pending election. -/
theorem applyDateEdits_not_pending (now : Nat) (sd ed : Option Nat) (e1 : Election)
    (h : e1.status ≠ .pending) : applyDateEdits now sd ed e1 = .ok e1 := by
  unfold applyDateEdits
  rw [if_neg h]

/-- The status-transition phase never moves a completed election. -/
theorem applyStatusChange_completed (now : Nat) (st : Option String) (e2 : Election)
    (h : e2.status = .completed) : (applyStatusChange now st e2).status = .completed := by
  cases st with
  | none => exact h
  | some s =>
    simp only [applyStatusChange]
    rw [if_neg (by simp [h]), if_neg (by simp [h]), if_neg (by simp [h])]
    exact h

/-- The status-transition phase never moves a cancelled election. -/
theorem applyStatusChange_cancelled (now : Nat) (st : Option String) (e2 : Election)
    (h : e2.status = .cancelled) : (applyStatusChange now st e2).status = .cancelled := by
  cases st with
  | none => exact h
  | some s =>
    simp only [applyStatusChange]
    rw [if_neg (by simp [h])]
    by_cases hs : s = "cancelled"
    · rw [if_pos ⟨hs, by simp [h]⟩]
    · rw [if_neg (by simp [hs]), if_neg (by simp [h])]
      exact h

/-- Counterexample to C5 as stated: the admin `updateElectionStatus`
handler, called with status `'pending'` on the concrete completed
election, succeeds and moves the election out of completed. -/
theorem updateElectionStatus_escapes_completed :
    completedElection.status = .completed
    ∧ updateElectionStatus 300 "pending" completedElection
        = .ok { completedElection with status := .pending }
    ∧ ({ completedElection with status := Status.pending } : Election).status ≠ .completed :=
  ⟨rfl, rfl, by decide⟩

/-- Claim C5, amended: completed and cancelled are terminal for
`updateElection`, `publishResults` and `castVote`, and
`calculateResults` keeps a completed election completed — but the admin
`updateElectionStatus` handler overwrites the status unconditionally
with any valid requested value, so they are not terminal against it. -/
theorem terminal_status_amended (now : Nat) (e : Election)
    (h : e.status = .completed ∨ e.status = .cancelled) :
    (∀ perm t d sd ed st, ∀ e', updateElection now perm t d sd ed st e = .ok e' →
        e'.status = e.status)
    ∧ (∀ perm, ∀ e', publishResults now perm e = .ok e' → e'.status = e.status)
    ∧ (∀ cls cands sid cid, ∃ err, castVote now cls cands sid cid e = .error err)
    ∧ (e.status = .completed → ((e.calculateResults now).2).status = .completed) := by
  have hnp : e.status ≠ .pending := by rcases h with h | h <;> simp [h]
  have hna : e.status ≠ .active := by rcases h with h | h <;> simp [h]
  refine ⟨?_, ?_, ?_, calculateResults_keeps_completed now e⟩
  · intro perm t d sd ed st e' hok
    unfold updateElection at hok
    split at hok
    · exact Except.noConfusion hok
    · split at hok
      · exact Except.noConfusion hok
      · rw [applyDateEdits_not_pending now sd ed
            { e with title := t.getD e.title, description := d.getD e.description } hnp] at hok
        have hok' : applyStatusChange now st
            { e with title := t.getD e.title, description := d.getD e.description } = e' :=
          Except.ok.inj hok
        subst hok'
        rcases h with hc | hc
        · rw [hc]
          exact applyStatusChange_completed now st _ rfl
        · rw [hc]
          exact applyStatusChange_cancelled now st _ rfl
  · intro perm e' hok
    unfold publishResults at hok
    split at hok
    · exact Except.noConfusion hok
    · rcases h with hc | hc
      · have hstep : completeIfEnded now e = .ok e := by
          unfold completeIfEnded
          rw [if_neg (by simp [hc])]
        rw [hstep] at hok
        have hok' : ({ (e.calculateResults now).2 with
            results := { ((e.calculateResults now).2).results with
              published := true, publishedAt := some now } } : Election) = e' :=
          Except.ok.inj hok
        subst hok'
        rw [hc]
        exact calculateResults_keeps_completed now e hc
      · have hstep : completeIfEnded now e = .error .notCompleted := by
          unfold completeIfEnded
          rw [if_pos (by simp [hc]), if_neg (by simp [hc])]
        rw [hstep] at hok
        exact Except.noConfusion hok
  · intro cls cands sid cid
    unfold castVote
    rw [if_pos (by simp [hna])]
    exact ⟨_, rfl⟩

/-- Witness for the amended C5 on the concrete completed election:
`castVote` is rejected and `calculateResults` leaves it completed. -/
theorem terminal_status_amended_witness :
    (∃ err, castVote 150 "c1" [candA] "s1" "A" completedElection = .error err)
    ∧ ((completedElection.calculateResults 150).2).status = .completed := by
  have h := terminal_status_amended 150 completedElection (Or.inl rfl)
  exact ⟨h.2.2.1 "c1" [candA] "s1" "A", h.2.2.2 rfl⟩

/-- Claim C6: toggling QR access never reissues the token; with the
link disabled, `submitPublicVote` fails with the invalid-link error
even with the valid token; and toggling twice restores the election, so
the same token resumes its prior accept/reject behaviour. -/
theorem toggleQR_token_inert (now : Nat) (cands : List CandidateRec) (cid : String)
    (roll : Option String) (ip ua : String) (e e1 : Election)
    (h : toggleQRAccess true e = .ok e1) (hen : e.qrCode.isEnabled = true) :
    e1.qrCode.accessToken = e.qrCode.accessToken
    ∧ e1.qrCode.isEnabled = false
    ∧ submitPublicVote now cands e.qrCode.accessToken (some cid) roll ip ua e1 = .error .invalidLink
    ∧ (∀ e2, toggleQRAccess true e1 = .ok e2 →
        ∀ token c2, submitPublicVote now cands token (some c2) roll ip ua e2
          = submitPublicVote now cands token (some c2) roll ip ua e) := by
  have he1 : e1 = { e with qrCode := { e.qrCode with isEnabled := !e.qrCode.isEnabled } } :=
    (Except.ok.inj h).symm
  subst he1
  refine ⟨rfl, by simp [hen], ?_, ?_⟩
  · simp only [submitPublicVote]
    rw [if_pos (by simp [hen])]
  · intro e2 h2 token c2
    have he2 : e2 = { e with qrCode :=
        { e.qrCode with isEnabled := !(!e.qrCode.isEnabled) } } := (Except.ok.inj h2).symm
    have : e2 = e := by rw [he2]; simp [Bool.not_not]
    rw [this]

/-- Witness for C6: disabling the concrete election's QR access leaves
the token `tok` in place and makes a public vote with that token fail
with the invalid-link error. -/
theorem toggleQR_token_inert_witness :
    ({ baseElection with qrCode := { data := "", accessToken := "tok", isEnabled := false } }
        : Election).qrCode.accessToken = "tok"
    ∧ submitPublicVote 150 [candA] "tok" (some "A") (some "r1") "ip" "ua"
        { baseElection with qrCode := { data := "", accessToken := "tok", isEnabled := false } }
      = .error .invalidLink := by
  have h := toggleQR_token_inert 150 [candA] "A" (some "r1") "ip" "ua" baseElection
    { baseElection with qrCode := { data := "", accessToken := "tok", isEnabled := false } }
    rfl rfl
  exact ⟨h.1, h.2.2.1⟩

/-- Counterexample to C7 as stated: a creation request whose start date
equals the current time is accepted, so `startDate ≤ now` does not
always fail — the code only rejects `startDate < now`. -/
theorem createElection_accepts_boundary_start :
    isOkE (createElection 100 [] true "e9" "T" "D" "c1" 100 200 "t1") = true := rfl

/-- Claim C7, amended: `createElection` rejects a start date strictly
before now with the start-in-past error and a non-positive window with
the end-not-after-start error, but accepts the boundary case
`startDate = now`. -/
theorem createElection_date_validation (now s e : Nat) (elections : List Election)
    (nid t d C cb : String) (ht : t ≠ "") (hd : d ≠ "") (hC : C ≠ "") :
    (s < now → createElection now elections true nid t d C s e cb = .error .startInPast)
    ∧ (now ≤ s → e ≤ s → createElection now elections true nid t d C s e cb = .error .endNotAfterStart)
    ∧ (s = now → s < e → findOverlapping elections C s e = none →
        ∃ el, createElection now elections true nid t d C s e cb = .ok el) := by
  refine ⟨?_, ?_, ?_⟩
  · intro hs
    unfold createElection
    rw [if_neg (by simp [ht, hd, hC]), if_neg (by simp), if_pos (by simp [hs])]
  · intro h1 h2
    unfold createElection
    rw [if_neg (by simp [ht, hd, hC]), if_neg (by simp),
        if_neg (by simp [Nat.not_lt.mpr h1]), if_pos (by simp [h2])]
  · intro heq hlt hnone
    unfold createElection
    rw [if_neg (by simp [ht, hd, hC]), if_neg (by simp),
        if_neg (by simp [heq]), if_neg (by simp [Nat.not_le.mpr hlt]),
        if_neg (by simp [hnone])]
    exact ⟨_, rfl⟩

/-- Witness for the amended C7: a start in the past is rejected, an end
at or before the start is rejected, and a start exactly at now with a
later end is accepted. -/
theorem createElection_date_validation_witness :
    createElection 100 [] true "e9" "T" "D" "c1" 50 200 "t1" = .error .startInPast
    ∧ createElection 100 [] true "e9" "T" "D" "c1" 120 120 "t1" = .error .endNotAfterStart
    ∧ (∃ el, createElection 100 [] true "e9" "T" "D" "c1" 100 200 "t1" = .ok el) := by
  have h1 := createElection_date_validation 100 50 200 [] "e9" "T" "D" "c1" "t1"
    (by decide) (by decide) (by decide)
  have h2 := createElection_date_validation 100 120 120 [] "e9" "T" "D" "c1" "t1"
    (by decide) (by decide) (by decide)
  have h3 := createElection_date_validation 100 100 200 [] "e9" "T" "D" "c1" "t1"
    (by decide) (by decide) (by decide)
  exact ⟨h1.1 (by decide), h2.2.1 (by decide) (by decide),
    h3.2.2 rfl (by decide) rfl⟩

/-- Counterexample to C8 as stated: removing a candidate from the
concrete cancelled election succeeds — cancelled is not pending, yet
removal is not rejected. -/
theorem removeCandidate_allows_cancelled :
    cancelledElection.status = .cancelled
    ∧ removeCandidate true "A" [candA] cancelledElection
        = .ok { cancelledElection with candidates := ["B"] } := ⟨rfl, rfl⟩

/-- Claim C8, amended: `removeCandidate` rejects exactly the active and
completed statuses with the candidacy-locked error; any successful
removal happened on an election that is neither active nor completed
(pending or cancelled) and filtered the candidate out. -/
theorem removeCandidate_guard_spec (perm : Bool) (cid : String)
    (cands : List CandidateRec) (e : Election) :
    ((e.status = .active ∨ e.status = .completed) →
        removeCandidate true cid cands e = .error .candidacyLocked)
    ∧ (∀ e', removeCandidate perm cid cands e = .ok e' →
        e.status ≠ .active ∧ e.status ≠ .completed
        ∧ e' = { e with candidates := e.candidates.filter fun c => c ≠ cid }) := by
  constructor
  · intro h
    unfold removeCandidate
    rw [if_neg (by simp), if_pos (by rcases h with h | h <;> simp [h])]
  · intro e' hok
    unfold removeCandidate at hok
    split at hok
    · exact Except.noConfusion hok
    · split at hok
      · exact Except.noConfusion hok
      · rename_i hguard
        have hg : e.status ≠ .active ∧ e.status ≠ .completed := by
          constructor <;> intro hc <;> exact hguard (by simp [hc])
        split at hok
        · exact Except.noConfusion hok
        · exact ⟨hg.1, hg.2, (Except.ok.inj hok).symm⟩

/-- Witness for the amended C8: the active concrete election rejects
removal, while the cancelled one removed candidate A. -/
theorem removeCandidate_guard_spec_witness :
    removeCandidate true "A" [candA] baseElection = .error .candidacyLocked
    ∧ (cancelledElection.status ≠ .active ∧ cancelledElection.status ≠ .completed
        ∧ ({ cancelledElection with candidates := ["B"] } : Election)
            = { cancelledElection with
                candidates := cancelledElection.candidates.filter fun c => c ≠ "A" }) := by
  have h1 := removeCandidate_guard_spec true "A" [candA] baseElection
  have h2 := removeCandidate_guard_spec true "A" [candA] cancelledElection
  exact ⟨h1.1 (Or.inl rfl), h2.2 _ rfl⟩

/-- Claim C9: the already-voted check of `castVote` reads only the
authenticated ledger, so a student whose roll number already sits in
the anonymous ledger can still cast an authenticated vote: with the
other preconditions holding, `castVote` succeeds and appends. -/
theorem castVote_ignores_anonymous_ledger (now : Nat) (cls : String)
    (cands : List CandidateRec) (sid cid r : String) (e : Election)
    (hanon : (e.anonymousVotes.any fun v => v.rollNumber = r) = true)
    (hauth : (e.votes.any fun v => v.student = sid) = false)
    (hcls : e.classId = cls) (hst : e.status = .active)
    (hd1 : e.startDate ≤ now) (hd2 : now ≤ e.endDate)
    (hfind : (cands.find? fun c =>
        decide (c.id = cid) && decide (c.election = e.id) && c.approved && c.active).isSome = true) :
    e.hasVoted (some sid) none = false
    ∧ e.hasVoted none (some r) = true
    ∧ castVote now cls cands sid cid e
        = .ok { e with votes := e.votes ++ [{ student := sid, candidate := cid, timestamp := now }] } := by
  have hhv : e.hasVoted (some sid) none = false := by
    unfold Election.hasVoted
    simp [hauth]
  refine ⟨hhv, by unfold Election.hasVoted; simp [hanon], ?_⟩
  obtain ⟨c0, hc0⟩ := Option.isSome_iff_exists.mp hfind
  unfold castVote
  rw [if_neg (by simp [hcls, hst]),
      if_neg (by simp [Nat.not_lt.mpr hd1, Nat.not_lt.mpr hd2]),
      if_neg (by simp [hhv]), hc0]

/-- Witness for C9: on the concrete election whose anonymous ledger
already holds roll number r1, student s1 still votes successfully. -/
theorem castVote_ignores_anonymous_ledger_witness :
    castVote 150 "c1" [candA] "s1" "A"
        { baseElection with anonymousVotes :=
            [{ rollNumber := "r1", candidate := "A", ipAddress := "ip", userAgent := "ua", timestamp := 120 }] }
      = .ok { baseElection with
          anonymousVotes :=
            [{ rollNumber := "r1", candidate := "A", ipAddress := "ip", userAgent := "ua", timestamp := 120 }]
          votes := [{ student := "s1", candidate := "A", timestamp := 150 }] } := by
  have h := castVote_ignores_anonymous_ledger 150 "c1" [candA] "s1" "A" "r1"
    { baseElection with anonymousVotes :=
        [{ rollNumber := "r1", candidate := "A", ipAddress := "ip", userAgent := "ua", timestamp := 120 }] }
    (by decide) (by decide) rfl rfl (by decide) (by decide) (by decide)
  exact h.2.2

/-- `calculateResults` on an empty authenticated ledger returns a zero
tally with no winner and leaves the election untouched. -/
theorem calculateResults_nil (now : Nat) (e : Election) (hv : e.votes = []) :
    e.calculateResults now
      = ({ totalVotes := 0, voteCounts := [], winnerId := none, maxVotes := 0 }, e) := by
  unfold Election.calculateResults
  rw [hv]
  rfl

/-- Claim C10: with an empty authenticated ledger, `calculateResults`
reports zero total votes and a null winner and changes nothing — so an
attempt to complete an active zero-vote election through
`updateElection` with status `'completed'` leaves the status active
(only the optional title and description edits apply). -/
theorem calculateResults_empty_ledger (now : Nat) (t d : Option String)
    (sd ed : Option Nat) (e : Election)
    (hv : e.votes = []) (ha : e.status = .active) :
    (e.calculateResults now).1.totalVotes = 0
    ∧ (e.calculateResults now).1.winnerId = none
    ∧ (e.calculateResults now).2 = e
    ∧ updateElection now true t d sd ed (some "completed") e
        = .ok { e with title := t.getD e.title, description := d.getD e.description } := by
  have h1 := calculateResults_nil now e hv
  have h2 := calculateResults_nil now
    { e with title := t.getD e.title, description := d.getD e.description } hv
  refine ⟨by rw [h1], by rw [h1], by rw [h1], ?_⟩
  unfold updateElection
  rw [if_neg (by simp), if_neg (by simp [ha]),
      applyDateEdits_not_pending now sd ed _ (by simp [ha])]
  simp only [applyStatusChange]
  rw [if_pos (by simp [ha]), h2]

/-- Witness for C10: the concrete active election with no votes keeps
status active when a completion is requested through `updateElection`. -/
theorem calculateResults_empty_ledger_witness :
    (baseElection.calculateResults 300).1.totalVotes = 0
    ∧ (baseElection.calculateResults 300).1.winnerId = none
    ∧ updateElection 300 true none none none none (some "completed") baseElection
        = .ok baseElection := by
  have h := calculateResults_empty_ledger 300 none none none none baseElection rfl rfl
  exact ⟨h.1, h.2.1, h.2.2.2⟩

end CollegeElection
